import Mathlib

/-!
Verification of `CUpwScalar` (SU2, `scalar_convection.hpp`): the scalar
upwind convective-flux engine.  Machine floating-point values are modelled
by exact rationals; the arrays `Normal`, `V_i`, `V_j`, `GridVel_i`,
`GridVel_j`, `ScalarVar_i`, `ScalarVar_j` are modelled as functions from
indices to rationals, and the loop accumulations by left folds over
`List.range nDim`, mirroring the C++ loops.
-/

namespace SU2Scalar

/-- The per-call inputs read by `CUpwScalar::ComputeResidual`: dimensions,
the `dynamic_grid` flag fixed at construction, and the per-edge arrays
set by the caller (`Normal`, primitive states `V_i`/`V_j`, grid velocities,
scalar transport variables). -/
structure UpwScalarIn where
  nDim : Nat
  nVar : Nat
  dynamic_grid : Bool
  Normal : Nat → ℚ
  V_i : Nat → ℚ
  V_j : Nat → ℚ
  GridVel_i : Nat → ℚ
  GridVel_j : Nat → ℚ
  ScalarVar_i : Nat → ℚ
  ScalarVar_j : Nat → ℚ

/-- The accumulation of `q_ij` in `ComputeResidual` (lines 126-137):
`q_ij = 0`, then for each `iDim < nDim`, if `dynamic_grid` add
`0.5 * ((V_i[iDim+1] - GridVel_i[iDim]) + (V_j[iDim+1] - GridVel_j[iDim])) * Normal[iDim]`,
otherwise add `0.5 * (V_i[iDim+1] + V_j[iDim+1]) * Normal[iDim]`. -/
def q_ij (s : UpwScalarIn) : ℚ :=
  if s.dynamic_grid then
    (List.range s.nDim).foldl
      (fun q iDim =>
        q + 1/2 * ((s.V_i (iDim + 1) - s.GridVel_i iDim)
              + (s.V_j (iDim + 1) - s.GridVel_j iDim)) * s.Normal iDim) 0
  else
    (List.range s.nDim).foldl
      (fun q iDim =>
        q + 1/2 * (s.V_i (iDim + 1) + s.V_j (iDim + 1)) * s.Normal iDim) 0

/-- The coefficient `a0 = 0.5 * (q_ij + fabs(q_ij))` (line 139). -/
def a0 (s : UpwScalarIn) : ℚ := 1/2 * (q_ij s + |q_ij s|)

/-- The coefficient `a1 = 0.5 * (q_ij - fabs(q_ij))` (line 140). -/
def a1 (s : UpwScalarIn) : ℚ := 1/2 * (q_ij s - |q_ij s|)

/-- A left fold accumulating `f` over `List.range n` is the finite sum of
`f` over `Finset.range n`. -/
theorem foldl_range_add_eq_sum (f : Nat → ℚ) (n : Nat) :
    (List.range n).foldl (fun q i => q + f i) 0 = ∑ i ∈ Finset.range n, f i := by
  induction n with
  | zero => simp
  | succ n ih =>
    rw [List.range_succ, List.foldl_append, ih, Finset.sum_range_succ]
    simp

/-- The relative velocity on side i actually used by the `q_ij` loop:
`V_i[iDim+1] - GridVel_i[iDim]` under `dynamic_grid`, else `V_i[iDim+1]`. -/
def vel_i (s : UpwScalarIn) (iDim : Nat) : ℚ :=
  if s.dynamic_grid then s.V_i (iDim + 1) - s.GridVel_i iDim else s.V_i (iDim + 1)

/-- The relative velocity on side j actually used by the `q_ij` loop. -/
def vel_j (s : UpwScalarIn) (iDim : Nat) : ℚ :=
  if s.dynamic_grid then s.V_j (iDim + 1) - s.GridVel_j iDim else s.V_j (iDim + 1)

/-- The speed `q_ij` as a closed sum over the relative velocities. -/
theorem q_ij_eq_sum (s : UpwScalarIn) :
    q_ij s = ∑ d ∈ Finset.range s.nDim, 1/2 * (vel_i s d + vel_j s d) * s.Normal d := by
  unfold q_ij vel_i vel_j
  by_cases h : s.dynamic_grid
  · simp only [h, if_true]
    rw [foldl_range_add_eq_sum]
  · simp only [h, if_false, Bool.false_eq_true]
    rw [foldl_range_add_eq_sum]

theorem half_add_abs (q : ℚ) : 1/2 * (q + |q|) = max q 0 := by
  rcases le_or_lt 0 q with h | h
  · rw [abs_of_nonneg h, max_eq_left h]; ring
  · rw [abs_of_neg h, max_eq_right h.le]; ring

theorem half_sub_abs (q : ℚ) : 1/2 * (q - |q|) = min q 0 := by
  rcases le_or_lt 0 q with h | h
  · rw [abs_of_nonneg h, min_eq_right h]; ring
  · rw [abs_of_neg h, min_eq_left h.le]; ring

end SU2Scalar

namespace SU2Scalar

/-- C1: on every call, the face-normal convective speed is
`q = Σ_d 0.5·(v_i[d]+v_j[d])·Normal[d]` with `v_s[d] = V_s[d+1] - GridVel_s[d]`
under `dynamic_grid` and `V_s[d+1]` otherwise, and `a0 = max(q,0)`,
`a1 = min(q,0)`. -/
theorem C1_q_formula_and_split (s : UpwScalarIn) :
    q_ij s = (∑ d ∈ Finset.range s.nDim,
        1/2 * (((if s.dynamic_grid then s.V_i (d + 1) - s.GridVel_i d else s.V_i (d + 1))
          + (if s.dynamic_grid then s.V_j (d + 1) - s.GridVel_j d else s.V_j (d + 1)))
          * s.Normal d))
    ∧ a0 s = max (q_ij s) 0 ∧ a1 s = min (q_ij s) 0 := by
  refine ⟨?_, ?_, ?_⟩
  · rw [q_ij_eq_sum]
    refine Finset.sum_congr rfl fun d _ => ?_
    unfold vel_i vel_j
    ring
  · rw [a0, half_add_abs]
  · rw [a1, half_sub_abs]

/-- C2: for every input the split coefficients satisfy `a0 ≥ 0`, `a1 ≤ 0`,
and `a0 + a1 = q_ij` exactly. -/
theorem C2_split_invariants (s : UpwScalarIn) :
    0 ≤ a0 s ∧ a1 s ≤ 0 ∧ a0 s + a1 s = q_ij s := by
  refine ⟨?_, ?_, ?_⟩
  · rw [a0, half_add_abs]; exact le_max_right _ _
  · rw [a1, half_sub_abs]; exact min_le_right _ _
  · rw [a0, a1]; ring

end SU2Scalar

namespace SU2Scalar

/-- One operation on the algorithmic-differentiation tape, as invoked by
`ComputeResidual`: opening the preaccumulation scope, registering a named
array of tracked inputs, the model hook `ExtraADPreaccIn`, the convective
split together with `FinishResidualCalc`, registering a named array of
tracked outputs, and closing the scope. -/
inductive ADOp where
  | startPreacc : ADOp
  | setPreaccIn : String → Nat → ADOp
  | extraADPreaccIn : ADOp
  | residualCalc : ADOp
  | setPreaccOut : String → Nat → ADOp
  | endPreacc : ADOp
deriving DecidableEq

/-- The sequence of tape operations performed by one call of
`ComputeResidual` (lines 112-145), in source order: `AD::StartPreacc()`;
`AD::SetPreaccIn` on `Normal` (nDim), `ScalarVar_i` (nVar), `ScalarVar_j`
(nVar); under `dynamic_grid` also on `GridVel_i` and `GridVel_j` (nDim
each); `ExtraADPreaccIn()`; the split and `FinishResidualCalc`;
`AD::SetPreaccOut` on `Flux` (nVar); `AD::EndPreacc()`. -/
def computeResidualTrace (s : UpwScalarIn) : List ADOp :=
  [ADOp.startPreacc,
   ADOp.setPreaccIn "Normal" s.nDim,
   ADOp.setPreaccIn "ScalarVar_i" s.nVar,
   ADOp.setPreaccIn "ScalarVar_j" s.nVar]
  ++ (if s.dynamic_grid then
        [ADOp.setPreaccIn "GridVel_i" s.nDim, ADOp.setPreaccIn "GridVel_j" s.nDim]
      else [])
  ++ [ADOp.extraADPreaccIn,
      ADOp.residualCalc,
      ADOp.setPreaccOut "Flux" s.nVar,
      ADOp.endPreacc]

/-- C3: on every call the tape operations happen in the fixed order: scope
opened; `Normal`, `ScalarVar_i`, `ScalarVar_j` registered as inputs, then
`GridVel_i`/`GridVel_j` iff `dynamic_grid`; `ExtraADPreaccIn`; the split
and `FinishResidualCalc`; `Flux` registered as output; scope closed —
each of these steps exactly once, unconditionally. -/
theorem C3_tape_order (s : UpwScalarIn) :
    computeResidualTrace s
      = [ADOp.startPreacc,
         ADOp.setPreaccIn "Normal" s.nDim,
         ADOp.setPreaccIn "ScalarVar_i" s.nVar,
         ADOp.setPreaccIn "ScalarVar_j" s.nVar]
        ++ (if s.dynamic_grid then
              [ADOp.setPreaccIn "GridVel_i" s.nDim, ADOp.setPreaccIn "GridVel_j" s.nDim]
            else [])
        ++ [ADOp.extraADPreaccIn,
            ADOp.residualCalc,
            ADOp.setPreaccOut "Flux" s.nVar,
            ADOp.endPreacc]
    ∧ ((ADOp.setPreaccIn "GridVel_i" s.nDim ∈ computeResidualTrace s
        ∧ ADOp.setPreaccIn "GridVel_j" s.nDim ∈ computeResidualTrace s)
        ↔ s.dynamic_grid = true)
    ∧ (computeResidualTrace s).count ADOp.startPreacc = 1
    ∧ (computeResidualTrace s).count ADOp.extraADPreaccIn = 1
    ∧ (computeResidualTrace s).count ADOp.residualCalc = 1
    ∧ (computeResidualTrace s).count (ADOp.setPreaccOut "Flux" s.nVar) = 1
    ∧ (computeResidualTrace s).count ADOp.endPreacc = 1
    ∧ (computeResidualTrace s).head? = some ADOp.startPreacc
    ∧ (computeResidualTrace s).getLast? = some ADOp.endPreacc := by
  cases hdg : s.dynamic_grid <;>
    simp [computeResidualTrace, hdg, List.count_cons, List.count_nil, List.count_append]

end SU2Scalar

namespace SU2Scalar

/-- C9: the split coefficients always satisfy `a0·a1 = 0` and
`a0 - a1 = |q|`; at most one of them is nonzero, and both vanish exactly
when `q = 0`. -/
theorem C9_split_complementarity (s : UpwScalarIn) :
    a0 s * a1 s = 0 ∧ a0 s - a1 s = |q_ij s|
    ∧ (a0 s = 0 ∨ a1 s = 0)
    ∧ (a0 s = 0 ∧ a1 s = 0 ↔ q_ij s = 0) := by
  rcases le_or_lt 0 (q_ij s) with h | h
  · have h0 : a0 s = q_ij s := by rw [a0, abs_of_nonneg h]; ring
    have h1 : a1 s = 0 := by rw [a1, abs_of_nonneg h]; ring
    refine ⟨by rw [h1]; ring, by rw [h0, h1, abs_of_nonneg h]; ring, Or.inr h1, ?_⟩
    constructor
    · rintro ⟨ha, -⟩; rw [← h0]; exact ha
    · intro hq; exact ⟨by rw [h0, hq], h1⟩
  · have h0 : a0 s = 0 := by rw [a0, abs_of_neg h]; ring
    have h1 : a1 s = q_ij s := by rw [a1, abs_of_neg h]; ring
    refine ⟨by rw [h0]; ring, by rw [h0, h1, abs_of_neg h]; ring, Or.inl h0, ?_⟩
    constructor
    · rintro ⟨-, ha⟩; rw [← h1]; exact ha
    · intro hq; exact ⟨h0, by rw [h1, hq]⟩

/-- A concrete sample input used to instantiate universally quantified
theorems: 2-D, one variable, static grid, `Normal = [1,0]`,
velocities `[2,0]` and `[-1,0]`, densities 1, scalars 3 and 5. -/
def sampleIn : UpwScalarIn :=
  { nDim := 2, nVar := 1, dynamic_grid := false,
    Normal := fun d => if d = 0 then 1 else 0,
    V_i := fun k => if k = 1 then 2 else if k = 4 then 1 else 0,
    V_j := fun k => if k = 1 then -1 else if k = 4 then 1 else 0,
    GridVel_i := fun _ => 0,
    GridVel_j := fun _ => 0,
    ScalarVar_i := fun _ => 3,
    ScalarVar_j := fun _ => 5 }

/-- C9 at the concrete input `sampleIn`. -/
theorem C9_split_complementarity_witness :
    a0 sampleIn * a1 sampleIn = 0 ∧ a0 sampleIn - a1 sampleIn = |q_ij sampleIn|
    ∧ (a0 sampleIn = 0 ∨ a1 sampleIn = 0)
    ∧ (a0 sampleIn = 0 ∧ a1 sampleIn = 0 ↔ q_ij sampleIn = 0) :=
  C9_split_complementarity sampleIn

/-- C3 at the concrete input `sampleIn`. -/
theorem C3_tape_order_witness :
    computeResidualTrace sampleIn
      = [ADOp.startPreacc,
         ADOp.setPreaccIn "Normal" sampleIn.nDim,
         ADOp.setPreaccIn "ScalarVar_i" sampleIn.nVar,
         ADOp.setPreaccIn "ScalarVar_j" sampleIn.nVar]
        ++ (if sampleIn.dynamic_grid then
              [ADOp.setPreaccIn "GridVel_i" sampleIn.nDim,
               ADOp.setPreaccIn "GridVel_j" sampleIn.nDim]
            else [])
        ++ [ADOp.extraADPreaccIn,
            ADOp.residualCalc,
            ADOp.setPreaccOut "Flux" sampleIn.nVar,
            ADOp.endPreacc]
    ∧ ((ADOp.setPreaccIn "GridVel_i" sampleIn.nDim ∈ computeResidualTrace sampleIn
        ∧ ADOp.setPreaccIn "GridVel_j" sampleIn.nDim ∈ computeResidualTrace sampleIn)
        ↔ sampleIn.dynamic_grid = true)
    ∧ (computeResidualTrace sampleIn).count ADOp.startPreacc = 1
    ∧ (computeResidualTrace sampleIn).count ADOp.extraADPreaccIn = 1
    ∧ (computeResidualTrace sampleIn).count ADOp.residualCalc = 1
    ∧ (computeResidualTrace sampleIn).count (ADOp.setPreaccOut "Flux" sampleIn.nVar) = 1
    ∧ (computeResidualTrace sampleIn).count ADOp.endPreacc = 1
    ∧ (computeResidualTrace sampleIn).head? = some ADOp.startPreacc
    ∧ (computeResidualTrace sampleIn).getLast? = some ADOp.endPreacc :=
  C3_tape_order sampleIn

/-- C4: under `dynamic_grid`, if the flow velocity equals the grid velocity
on both sides in every dimension, then `q_ij = 0` and `a0 = a1 = 0`,
independent of the common velocity magnitude. -/
theorem C4_galilean_invariance (s : UpwScalarIn) (hg : s.dynamic_grid = true)
    (hi : ∀ d, d < s.nDim → s.V_i (d + 1) = s.GridVel_i d)
    (hj : ∀ d, d < s.nDim → s.V_j (d + 1) = s.GridVel_j d) :
    q_ij s = 0 ∧ a0 s = 0 ∧ a1 s = 0 := by
  have hq : q_ij s = 0 := by
    rw [q_ij_eq_sum]
    refine Finset.sum_eq_zero fun d hd => ?_
    rw [Finset.mem_range] at hd
    rw [vel_i, vel_j, hg, if_pos rfl, if_pos rfl, hi d hd, hj d hd]
    ring
  exact ⟨hq, by rw [a0, hq]; simp, by rw [a1, hq]; simp⟩

/-- A moving-grid input where the flow moves exactly with the grid on both
sides (common velocity `[7,-4]`). -/
def galileanIn : UpwScalarIn :=
  { nDim := 2, nVar := 1, dynamic_grid := true,
    Normal := fun d => if d = 0 then 1 else 2,
    V_i := fun k => if k = 1 then 7 else if k = 2 then -4 else 1,
    V_j := fun k => if k = 1 then 7 else if k = 2 then -4 else 1,
    GridVel_i := fun d => if d = 0 then 7 else -4,
    GridVel_j := fun d => if d = 0 then 7 else -4,
    ScalarVar_i := fun _ => 3,
    ScalarVar_j := fun _ => 5 }

/-- C4 at the concrete input `galileanIn`, discharging its hypotheses. -/
theorem C4_galilean_invariance_witness :
    galileanIn.dynamic_grid = true
    ∧ (∀ d, d < galileanIn.nDim → galileanIn.V_i (d + 1) = galileanIn.GridVel_i d)
    ∧ (∀ d, d < galileanIn.nDim → galileanIn.V_j (d + 1) = galileanIn.GridVel_j d)
    ∧ (q_ij galileanIn = 0 ∧ a0 galileanIn = 0 ∧ a1 galileanIn = 0) :=
  ⟨rfl, by decide, by decide,
   C4_galilean_invariance galileanIn rfl (by decide) (by decide)⟩

end SU2Scalar

namespace SU2Scalar

/-- C7: a zero face normal is not an error: every component of `Normal`
being zero gives the well-defined result `q_ij = 0` and `a0 = a1 = 0`. -/
theorem C7_zero_normal_degenerate (s : UpwScalarIn)
    (h : ∀ d, d < s.nDim → s.Normal d = 0) :
    q_ij s = 0 ∧ a0 s = 0 ∧ a1 s = 0 := by
  have hq : q_ij s = 0 := by
    rw [q_ij_eq_sum]
    refine Finset.sum_eq_zero fun d hd => ?_
    rw [Finset.mem_range] at hd
    rw [h d hd]
    ring
  exact ⟨hq, by rw [a0, hq]; simp, by rw [a1, hq]; simp⟩

/-- A static-grid input whose face normal is the zero vector. -/
def zeroNormalIn : UpwScalarIn :=
  { nDim := 2, nVar := 1, dynamic_grid := false,
    Normal := fun _ => 0,
    V_i := fun k => if k = 1 then 2 else if k = 4 then 1 else 0,
    V_j := fun k => if k = 1 then -1 else if k = 4 then 1 else 0,
    GridVel_i := fun _ => 0,
    GridVel_j := fun _ => 0,
    ScalarVar_i := fun _ => 3,
    ScalarVar_j := fun _ => 5 }

/-- C7 at the concrete input `zeroNormalIn`, discharging its hypothesis. -/
theorem C7_zero_normal_degenerate_witness :
    (∀ d, d < zeroNormalIn.nDim → zeroNormalIn.Normal d = 0)
    ∧ (q_ij zeroNormalIn = 0 ∧ a0 zeroNormalIn = 0 ∧ a1 zeroNormalIn = 0) :=
  ⟨fun _ _ => rfl, C7_zero_normal_degenerate zeroNormalIn fun _ _ => rfl⟩

/-- C10: when `dynamic_grid` is false, two calls identical in every input
except the grid velocities produce identical `q_ij`, `a0` and `a1`, and
no `SetPreaccIn` registration of `GridVel_i` or `GridVel_j` appears in the
tape trace. -/
theorem C10_static_grid_noninterference (s t : UpwScalarIn)
    (hs : s.dynamic_grid = false) (ht : t.dynamic_grid = false)
    (hnd : s.nDim = t.nDim) (_hnv : s.nVar = t.nVar)
    (hN : s.Normal = t.Normal) (hVi : s.V_i = t.V_i) (hVj : s.V_j = t.V_j)
    (_hSi : s.ScalarVar_i = t.ScalarVar_i) (_hSj : s.ScalarVar_j = t.ScalarVar_j) :
    (q_ij s = q_ij t ∧ a0 s = a0 t ∧ a1 s = a1 t)
    ∧ (∀ n, ADOp.setPreaccIn "GridVel_i" n ∉ computeResidualTrace s
            ∧ ADOp.setPreaccIn "GridVel_j" n ∉ computeResidualTrace s) := by
  have hq : q_ij s = q_ij t := by
    rw [q_ij, q_ij, hs, ht, hnd, hN, hVi, hVj]
    simp
  refine ⟨⟨hq, by rw [a0, a0, hq], by rw [a1, a1, hq]⟩, fun n => ?_⟩
  constructor <;> · rw [computeResidualTrace, hs]; simp

/-- The sample input with nonzero grid velocities substituted; since
`dynamic_grid` is false these must not influence the result. -/
def sampleInAltGrid : UpwScalarIn :=
  { sampleIn with GridVel_i := fun _ => 9, GridVel_j := fun _ => -6 }

/-- C10 at the concrete inputs `sampleIn` and `sampleInAltGrid`,
discharging all hypotheses. -/
theorem C10_static_grid_noninterference_witness :
    (q_ij sampleIn = q_ij sampleInAltGrid ∧ a0 sampleIn = a0 sampleInAltGrid
      ∧ a1 sampleIn = a1 sampleInAltGrid)
    ∧ (∀ n, ADOp.setPreaccIn "GridVel_i" n ∉ computeResidualTrace sampleIn
            ∧ ADOp.setPreaccIn "GridVel_j" n ∉ computeResidualTrace sampleIn) :=
  C10_static_grid_noninterference sampleIn sampleInAltGrid
    rfl rfl rfl rfl rfl rfl rfl rfl rfl

end SU2Scalar

namespace SU2Scalar

/-- Allocation via `new su2double[n]` in C++ default-initializes the array: its contents
are indeterminate.  The allocation is modelled with an explicit function
`junk` supplying whatever values the allocator left in that memory. -/
def newDoubleArray (junk : Nat → ℚ) (n : Nat) : List ℚ :=
  (List.range n).map junk

/-- The buffers owned by a `CUpwScalar` instance right after construction. -/
structure EngineBuffers where
  a0 : ℚ
  a1 : ℚ
  Flux : List ℚ
  Jacobian_i : List (List ℚ)
  Jacobian_j : List (List ℚ)

/-- The `CUpwScalar` constructor (lines 77-89): the in-class member
initializers set `a0 = 0.0` and `a1 = 0.0`; the body allocates `Flux`
(`new su2double[nVar]`) and the `nVar` rows of `Jacobian_i`/`Jacobian_j`
(`new su2double[nVar]` each) without value-initialization, so the entries
are the indeterminate allocator values `junkF`, `junkI`, `junkJ`. -/
def construct (nVar : Nat) (junkF : Nat → ℚ) (junkI junkJ : Nat → Nat → ℚ) :
    EngineBuffers :=
  { a0 := 0, a1 := 0,
    Flux := newDoubleArray junkF nVar,
    Jacobian_i := (List.range nVar).map fun iVar => newDoubleArray (junkI iVar) nVar,
    Jacobian_j := (List.range nVar).map fun iVar => newDoubleArray (junkJ iVar) nVar }

/-- C6 counterexample: construction with allocator residue 1 in the flux
buffer leaves `Flux = [1]`, not zero — `new su2double[nVar]` does not
value-initialize, so the claim that every buffer entry is zero after
construction is false. -/
theorem C6_counterexample_flux_not_zeroed :
    (construct 1 (fun _ => 1) (fun _ _ => 0) (fun _ _ => 0)).Flux ≠ [0] := by
  decide

/-- C6 amended: after construction the buffers have the right sizes —
`Flux` has `nVar` entries and each Jacobian is `nVar` rows of `nVar`
entries — and `a0 = a1 = 0`, but the buffer entries themselves are the
indeterminate values left by the allocator, not guaranteed zero. -/
theorem C6_construct_allocates (nVar : Nat) (junkF : Nat → ℚ)
    (junkI junkJ : Nat → Nat → ℚ) :
    (construct nVar junkF junkI junkJ).a0 = 0
    ∧ (construct nVar junkF junkI junkJ).a1 = 0
    ∧ (construct nVar junkF junkI junkJ).Flux.length = nVar
    ∧ (construct nVar junkF junkI junkJ).Jacobian_i.map List.length
        = List.replicate nVar nVar
    ∧ (construct nVar junkF junkI junkJ).Jacobian_j.map List.length
        = List.replicate nVar nVar
    ∧ (construct nVar junkF junkI junkJ).Flux = newDoubleArray junkF nVar := by
  refine ⟨rfl, rfl, by simp [construct, newDoubleArray], ?_, ?_, rfl⟩ <;>
  · simp only [construct, newDoubleArray, List.map_map]
    rw [List.eq_replicate_iff]
    constructor
    · simp
    · intro b hb
      simp only [List.mem_map, Function.comp] at hb
      obtain ⟨i, -, hi⟩ := hb
      simp at hi
      omega

end SU2Scalar

namespace SU2Scalar

/-- Modelled from the spec: the concrete model variants implementing
`FinishResidualCalc` are not part of this header, only the pure-virtual
hook is; the spec defines the purely linear upwind model as
`Flux = a0·scalar_i + a1·scalar_j` (one entry per transported quantity). -/
def linearFlux (s : UpwScalarIn) : List ℚ :=
  (List.range s.nVar).map fun iVar =>
    a0 s * s.ScalarVar_i iVar + a1 s * s.ScalarVar_j iVar

/-- Modelled from the spec: the linear upwind model's Jacobian with
respect to side i, `Jacobian_i = a0·Identity` (size nVar×nVar). -/
def linearJacobian_i (s : UpwScalarIn) : List (List ℚ) :=
  (List.range s.nVar).map fun iVar =>
    (List.range s.nVar).map fun jVar => if iVar = jVar then a0 s else 0

/-- Modelled from the spec: the linear upwind model's Jacobian with
respect to side j, `Jacobian_j = a1·Identity` (size nVar×nVar). -/
def linearJacobian_j (s : UpwScalarIn) : List (List ℚ) :=
  (List.range s.nVar).map fun iVar =>
    (List.range s.nVar).map fun jVar => if iVar = jVar then a1 s else 0

/-- C8: in the static 2-D scenario `Normal = [1,0]`, velocities `[2,0]`
and `[-1,0]`, densities 1, scalars 3 and 5, the engine computes
`q = 1/2`, `a0 = 1/2`, `a1 = 0`, and the linear upwind model yields
`Flux = [3/2]`, `Jacobian_i = [[1/2]]`, `Jacobian_j = [[0]]`. -/
theorem C8_static_scenario :
    q_ij sampleIn = 1/2 ∧ a0 sampleIn = 1/2 ∧ a1 sampleIn = 0
    ∧ linearFlux sampleIn = [3/2]
    ∧ linearJacobian_i sampleIn = [[1/2]]
    ∧ linearJacobian_j sampleIn = [[0]] := by
  have hq : q_ij sampleIn = 1/2 := by
    norm_num [q_ij, sampleIn, List.range_succ]
  have habs : |q_ij sampleIn| = 1/2 := by
    rw [hq]; norm_num
  have h0 : a0 sampleIn = 1/2 := by
    rw [a0, habs, hq]; norm_num
  have h1 : a1 sampleIn = 0 := by
    rw [a1, habs, hq]; norm_num
  refine ⟨hq, h0, h1, ?_, ?_, ?_⟩
  · show [a0 sampleIn * sampleIn.ScalarVar_i 0 + a1 sampleIn * sampleIn.ScalarVar_j 0]
      = [3/2]
    rw [h0, h1]
    norm_num [sampleIn]
  · show [[a0 sampleIn]] = [[1/2]]
    rw [h0]
  · show [[a1 sampleIn]] = [[0]]
    rw [h1]

/-- The moving-mesh scenario of the spec: the static sample state with
`dynamic_grid` set, grid velocity `[2,0]` on both sides, and arbitrary
scalars `si`, `sj`. -/
def movingIn (si sj : ℚ) : UpwScalarIn :=
  { sampleIn with
    dynamic_grid := true,
    GridVel_i := fun d => if d = 0 then 2 else 0,
    GridVel_j := fun d => if d = 0 then 2 else 0,
    ScalarVar_i := fun _ => si,
    ScalarVar_j := fun _ => sj }

/-- C5 counterexample: in the claimed moving-mesh scenario the side-j
relative velocity is `[-1-2, 0] = [-3, 0]`, not `[0,0]`; at scalars 3 and
5 the convective speed is `-3/2`, not 0, and the linear-model flux is
`[-15/2]`, not `[0]`. -/
theorem C5_counterexample_q_not_zero :
    ¬ (q_ij (movingIn 3 5) = 0 ∧ a0 (movingIn 3 5) = 0 ∧ a1 (movingIn 3 5) = 0
        ∧ linearFlux (movingIn 3 5) = [0]) := by
  have hq : q_ij (movingIn 3 5) = -(3/2) := by
    norm_num [q_ij, movingIn, sampleIn, List.range_succ]
  rintro ⟨h, -, -, -⟩
  rw [hq] at h
  norm_num at h

/-- C5 amended: in the moving-mesh scenario only side i moves with the
grid; the relative velocities are `[0,0]` on side i and `[-3,0]` on side
j, so `q = -3/2`, `a0 = 0`, `a1 = -3/2`, and the linear upwind flux is
`[-3/2·scalar_j]` regardless of the value of `scalar_i`. -/
theorem C5_moving_scenario (si sj : ℚ) :
    q_ij (movingIn si sj) = -(3/2) ∧ a0 (movingIn si sj) = 0
    ∧ a1 (movingIn si sj) = -(3/2)
    ∧ linearFlux (movingIn si sj) = [-(3/2) * sj] := by
  have hq : q_ij (movingIn si sj) = -(3/2) := by
    norm_num [q_ij, movingIn, sampleIn, List.range_succ]
  have habs : |q_ij (movingIn si sj)| = 3/2 := by
    rw [hq]; norm_num
  have h0 : a0 (movingIn si sj) = 0 := by
    rw [a0, habs, hq]; norm_num
  have h1 : a1 (movingIn si sj) = -(3/2) := by
    rw [a1, habs, hq]; norm_num
  refine ⟨hq, h0, h1, ?_⟩
  show [a0 (movingIn si sj) * si + a1 (movingIn si sj) * sj] = [-(3/2) * sj]
  rw [h0, h1]
  norm_num

end SU2Scalar
